import Mathlib

/-!
# Verification of the walrus GC type layer and module round trip

Shallow embedding of `src/ty.rs` (function types, value/reference/heap
types, their structural equality, ordering, hashing, display, and the
conversions at the decode/encode boundary) together with a spec-modelled
module encode/decode pair, and proofs of the spec's claims about them.
-/

set_option maxHeartbeats 1000000

/-- Abstract heap types for GC reference types (`AbstractHeapType` in
`src/src/ty.rs`), in Rust declaration order. -/
inductive AbstractHeapType where
  | Func
  | Extern
  | Any
  | None
  | NoExtern
  | NoFunc
  | Eq
  | Struct
  | Array
  | I31
  | Exn
  | NoExn
deriving DecidableEq

/-- A heap type for GC reference types (`HeapType` in `src/src/ty.rs`).
The concrete index is a `u32` in Rust; it is carried here as a `Nat`
(no arithmetic is ever performed on it). -/
inductive HeapType where
  | Abstract (ty : AbstractHeapType)
  | Concrete (idx : Nat)
deriving DecidableEq

/-- A reference type (`RefType` in `src/src/ty.rs`). -/
structure RefType where
  nullable : Bool
  heap_type : HeapType
deriving DecidableEq

/-- A value type (`ValType` in `src/src/ty.rs`), in Rust declaration order. -/
inductive ValType where
  | I32
  | I64
  | F32
  | F64
  | V128
  | Ref (r : RefType)
deriving DecidableEq

/-- A function type (`Type` in `src/src/ty.rs`; `Type` is a Lean keyword,
so the embedding calls it `Ty`). The arena id is carried as a `Nat`. -/
structure Ty where
  id : Nat
  params : List ValType
  results : List ValType
  is_for_function_entry : Bool
  name : Option String
deriving DecidableEq

/-- `impl PartialEq for Type`: structural equality over params, results and
the function-entry flag; id and name are not compared. -/
def tyEq (t rhs : Ty) : Bool :=
  decide (t.params = rhs.params) && decide (t.results = rhs.results) &&
    decide (t.is_for_function_entry = rhs.is_for_function_entry)

/-- Three-way comparison on `Nat` (the order underlying Rust's derived
`Ord` on field-less enum discriminants and on `u32`). -/
def cmpNat (m n : Nat) : Ordering :=
  if m < n then .lt else if m = n then .eq else .gt

/-- Rust's derived `Ord` on `bool`: `false < true`. -/
def cmpBool : Bool → Bool → Ordering
  | false, false => .eq
  | false, true => .lt
  | true, false => .gt
  | true, true => .eq

/-- Discriminant of `AbstractHeapType` in declaration order (the key of
Rust's derived `Ord`). -/
def AbstractHeapType.discr : AbstractHeapType → Nat
  | .Func => 0
  | .Extern => 1
  | .Any => 2
  | .None => 3
  | .NoExtern => 4
  | .NoFunc => 5
  | .Eq => 6
  | .Struct => 7
  | .Array => 8
  | .I31 => 9
  | .Exn => 10
  | .NoExn => 11

/-- Rust's derived `Ord` on `AbstractHeapType`. -/
def cmpAbstractHeapType (a b : AbstractHeapType) : Ordering :=
  cmpNat a.discr b.discr

/-- Rust's derived `Ord` on `HeapType`: variant order first
(`Abstract < Concrete`), then the payload. -/
def cmpHeapType : HeapType → HeapType → Ordering
  | .Abstract a, .Abstract b => cmpAbstractHeapType a b
  | .Abstract _, .Concrete _ => .lt
  | .Concrete _, .Abstract _ => .gt
  | .Concrete i, .Concrete j => cmpNat i j

/-- Rust's derived `Ord` on `RefType`: `nullable` first, then `heap_type`. -/
def cmpRefType (a b : RefType) : Ordering :=
  (cmpBool a.nullable b.nullable).then (cmpHeapType a.heap_type b.heap_type)

/-- Rust's derived `Ord` on `ValType`: variant order, then the payload. -/
def cmpValType : ValType → ValType → Ordering
  | .I32, .I32 => .eq
  | .I32, _ => .lt
  | .I64, .I32 => .gt
  | .I64, .I64 => .eq
  | .I64, _ => .lt
  | .F32, .I32 | .F32, .I64 => .gt
  | .F32, .F32 => .eq
  | .F32, _ => .lt
  | .F64, .I32 | .F64, .I64 | .F64, .F32 => .gt
  | .F64, .F64 => .eq
  | .F64, _ => .lt
  | .V128, .Ref _ => .lt
  | .V128, .V128 => .eq
  | .V128, _ => .gt
  | .Ref a, .Ref b => cmpRefType a b
  | .Ref _, _ => .gt

/-- Rust's `Ord` on slices: lexicographic, a strict prefix is smaller. -/
def cmpList (cmp : α → α → Ordering) : List α → List α → Ordering
  | [], [] => .eq
  | [], _ :: _ => .lt
  | _ :: _, [] => .gt
  | a :: as_, b :: bs => (cmp a b).then (cmpList cmp as_ bs)

/-- `impl Ord for Type`: params compared first, then results
(`self.params().cmp(rhs.params()).then_with(|| self.results().cmp(rhs.results()))`). -/
def tyCmp (t rhs : Ty) : Ordering :=
  (cmpList cmpValType t.params rhs.params).then
    (cmpList cmpValType t.results rhs.results)

/-- `impl Tombstone for Type`: `on_delete` replaces params and results with
the empty slice. -/
def tyOnDelete (t : Ty) : Ty :=
  { t with params := [], results := [] }

/-- `Type::new`: fresh type, not a function-entry type, no name. -/
def tyNew (id : Nat) (params results : List ValType) : Ty :=
  { id := id, params := params, results := results,
    is_for_function_entry := false, name := none }

/-- `Type::for_function_entry`: zero params, flagged internal. -/
def tyForFunctionEntry (id : Nat) (results : List ValType) : Ty :=
  { id := id, params := [], results := results,
    is_for_function_entry := true, name := none }

/-! ## RefType associated constants (`impl RefType`, src/src/ty.rs) -/

/-- Alias for the `anyref` type (`RefType::ANYREF`). -/
def RefType.ANYREF : RefType :=
  { nullable := true, heap_type := .Abstract .Any }

/-- Alias for the `eqref` type (`RefType::EQREF`). -/
def RefType.EQREF : RefType :=
  { nullable := true, heap_type := .Abstract .Eq }

/-- Alias for the `funcref` type (`RefType::FUNCREF`). -/
def RefType.FUNCREF : RefType :=
  { nullable := true, heap_type := .Abstract .Func }

/-- Alias for the `externref` type (`RefType::EXTERNREF`). -/
def RefType.EXTERNREF : RefType :=
  { nullable := true, heap_type := .Abstract .Extern }

/-- Alias for the `i31ref` type (`RefType::I31REF`). -/
def RefType.I31REF : RefType :=
  { nullable := true, heap_type := .Abstract .I31 }

/-- Alias for the `arrayref` type (`RefType::ARRAYREF`). -/
def RefType.ARRAYREF : RefType :=
  { nullable := true, heap_type := .Abstract .Array }

/-- Alias for the `structref` type (`RefType::STRUCTREF`). -/
def RefType.STRUCTREF : RefType :=
  { nullable := true, heap_type := .Abstract .Struct }

/-- Alias for the `exnref` type (`RefType::EXNREF`). -/
def RefType.EXNREF : RefType :=
  { nullable := true, heap_type := .Abstract .Exn }

/-- Alias for the `nullref` type (`RefType::NULLREF`). -/
def RefType.NULLREF : RefType :=
  { nullable := true, heap_type := .Abstract .None }

/-- Alias for the `nullexternref` type (`RefType::NULLEXTERNREF`). -/
def RefType.NULLEXTERNREF : RefType :=
  { nullable := true, heap_type := .Abstract .NoExtern }

/-- Alias for the `nullfuncref` type (`RefType::NULLFUNCREF`). -/
def RefType.NULLFUNCREF : RefType :=
  { nullable := true, heap_type := .Abstract .NoFunc }

/-- The complete list of `RefType` associated constants declared in
`impl RefType` (src/src/ty.rs lines 297-362), in source order. -/
def refTypeConstants : List RefType :=
  [RefType.ANYREF, RefType.EQREF, RefType.FUNCREF, RefType.EXTERNREF,
   RefType.I31REF, RefType.ARRAYREF, RefType.STRUCTREF, RefType.EXNREF,
   RefType.NULLREF, RefType.NULLEXTERNREF, RefType.NULLFUNCREF]

/-! ## Display rendering (`impl fmt::Display`, src/src/ty.rs) -/

/-- Decimal digits, least significant first, with explicit fuel so the
definition is structurally recursive (the fuel never runs out when it
starts at the number itself). -/
def decDigitsRevFuel : Nat → Nat → List Nat
  | 0, n => [n % 10]
  | fuel + 1, n => if n < 10 then [n] else n % 10 :: decDigitsRevFuel fuel (n / 10)

/-- Decimal digits of `n`, least significant first. -/
def decDigitsRev (n : Nat) : List Nat :=
  decDigitsRevFuel n n

/-- Render one decimal digit as a character. -/
def digitChar (d : Nat) : Char := Char.ofNat (48 + d)

/-- Decimal rendering of a natural number, most significant digit first
(Rust's `Display` for `u32`). -/
def natDecimal (n : Nat) : String :=
  String.mk (((decDigitsRev n).reverse).map digitChar)

/-- `impl fmt::Display for HeapType`: the inner match on abstract heap
types renders the plain heap-type name. -/
def abstractHeapTypeName : AbstractHeapType → String
  | .Func => "func"
  | .Extern => "extern"
  | .Any => "any"
  | .None => "none"
  | .NoExtern => "noextern"
  | .NoFunc => "nofunc"
  | .Eq => "eq"
  | .Struct => "struct"
  | .Array => "array"
  | .I31 => "i31"
  | .Exn => "exn"
  | .NoExn => "noexn"

/-- `impl fmt::Display for HeapType`: abstract types print their name,
concrete types print the index. -/
def displayHeapType : HeapType → String
  | .Abstract ab_heap_type => abstractHeapTypeName ab_heap_type
  | .Concrete id => natDecimal id

/-- `impl fmt::Display for RefType`: shorthand names for nullable
abstract types; `(ref null idx)` for nullable concrete types;
`(ref T)` for non-nullable types. -/
def displayRefType (r : RefType) : String :=
  if r.nullable then
    match r.heap_type with
    | .Abstract .Func => "funcref"
    | .Abstract .Extern => "externref"
    | .Abstract .Exn => "exnref"
    | .Abstract .Any => "anyref"
    | .Abstract .Eq => "eqref"
    | .Abstract .I31 => "i31ref"
    | .Abstract .Struct => "structref"
    | .Abstract .Array => "arrayref"
    | .Abstract .None => "nullref"
    | .Abstract .NoExtern => "nullexternref"
    | .Abstract .NoFunc => "nullfuncref"
    | .Abstract .NoExn => "nullexnref"
    | .Concrete idx => "(ref null " ++ natDecimal idx ++ ")"
  else
    "(ref " ++ displayHeapType r.heap_type ++ ")"

/-- The shorthand rendering of each abstract heap type in nullable
position (the names appearing in the nullable branch of
`impl fmt::Display for RefType`). -/
def shorthandName : AbstractHeapType → String
  | .Func => "funcref"
  | .Extern => "externref"
  | .Exn => "exnref"
  | .Any => "anyref"
  | .Eq => "eqref"
  | .I31 => "i31ref"
  | .Struct => "structref"
  | .Array => "arrayref"
  | .None => "nullref"
  | .NoExtern => "nullexternref"
  | .NoFunc => "nullfuncref"
  | .NoExn => "nullexnref"

/-! ## External schema models (wasmparser / wasm_encoder crates)

The `wasmparser` and `wasm_encoder` crates are external collaborators;
their types are modelled by their public shape as used in
`src/src/ty.rs`. -/

/-- `wasmparser::AbstractHeapType`: the abstract heap types of the
external parser, including the stack-switching variants `Cont` and
`NoCont` that the internal model rejects. -/
inductive WpAbstractHeapType where
  | Func
  | Extern
  | Any
  | None
  | NoExtern
  | NoFunc
  | Eq
  | Struct
  | Array
  | I31
  | Exn
  | NoExn
  | Cont
  | NoCont
deriving DecidableEq

/-- `wasmparser::HeapType`: abstract (with a shared flag), concrete
(indexed), or exact (indexed). -/
inductive WpHeapType where
  | Abstract (shared : Bool) (ty : WpAbstractHeapType)
  | Concrete (idx : Nat)
  | Exact (idx : Nat)
deriving DecidableEq

/-- `wasmparser::RefType`: nullability plus heap type, as exposed by its
`is_nullable` and `heap_type` accessors. -/
structure WpRefType where
  nullable : Bool
  heap_type : WpHeapType
deriving DecidableEq

/-- `wasmparser::RefType::CONT`: the non-nullable `(ref cont)` shorthand. -/
def WpRefType.CONT : WpRefType :=
  { nullable := false, heap_type := .Abstract false .Cont }

/-- `wasmparser::RefType::CONTREF`: the nullable `contref` shorthand. -/
def WpRefType.CONTREF : WpRefType :=
  { nullable := true, heap_type := .Abstract false .Cont }

/-- `wasmparser::RefType::NULLCONTREF`: the nullable `nullcontref`
shorthand. -/
def WpRefType.NULLCONTREF : WpRefType :=
  { nullable := true, heap_type := .Abstract false .NoCont }

/-- `wasmparser::RefType::NOCONT`: the non-nullable `(ref nocont)`
shorthand. -/
def WpRefType.NOCONT : WpRefType :=
  { nullable := false, heap_type := .Abstract false .NoCont }

/-- `wasmparser::ValType`. -/
inductive WpValType where
  | I32
  | I64
  | F32
  | F64
  | V128
  | Ref (r : WpRefType)
deriving DecidableEq

/-- `wasm_encoder::AbstractHeapType` (the encoder has no internal
representation gap: all twelve supported variants plus the continuation
ones, but only the supported ones are ever produced by this crate). -/
inductive EncAbstractHeapType where
  | Func
  | Extern
  | Any
  | None
  | NoExtern
  | NoFunc
  | Eq
  | Struct
  | Array
  | I31
  | Exn
  | NoExn
deriving DecidableEq

/-- `wasm_encoder::HeapType::Abstract { shared, ty }` (the only variant
this crate produces). -/
structure EncHeapType where
  shared : Bool
  ty : EncAbstractHeapType
deriving DecidableEq

/-- `impl Into<wasm_encoder::AbstractHeapType> for AbstractHeapType`:
the same-named encoder variant. -/
def abstractHeapTypeIntoEnc : AbstractHeapType → EncAbstractHeapType
  | .Func => .Func
  | .Extern => .Extern
  | .Any => .Any
  | .None => .None
  | .NoExtern => .NoExtern
  | .NoFunc => .NoFunc
  | .Eq => .Eq
  | .Struct => .Struct
  | .Array => .Array
  | .I31 => .I31
  | .Exn => .Exn
  | .NoExn => .NoExn

/-- `HeapType::to_wasmencoder_heap_type`: `Abstract` converts with
`shared: false`; `Concrete` hits `todo!` (a hard abort, modelled as
`none`). -/
def toWasmencoderHeapType : HeapType → Option EncHeapType
  | .Abstract ab_heap_type =>
      some { shared := false, ty := abstractHeapTypeIntoEnc ab_heap_type }
  | .Concrete _ => none

/-- `impl TryFrom<wasmparser::AbstractHeapType> for AbstractHeapType`:
same-named conversion, with `Cont` and `NoCont` rejected by `bail!`. -/
def tryFromWpAbstractHeapType : WpAbstractHeapType →
    Except String AbstractHeapType
  | .Func => .ok .Func
  | .Extern => .ok .Extern
  | .Any => .ok .Any
  | .None => .ok .None
  | .NoExtern => .ok .NoExtern
  | .NoFunc => .ok .NoFunc
  | .Eq => .ok .Eq
  | .Struct => .ok .Struct
  | .Array => .ok .Array
  | .I31 => .ok .I31
  | .Exn => .ok .Exn
  | .NoExn => .ok .NoExn
  | .Cont => .error "Stack switching proposal is not supported"
  | .NoCont => .error "Stack switching proposal is not supported"

/-- `impl TryFrom<wasmparser::HeapType> for HeapType`: abstract heap
types convert through the abstract conversion (the shared flag is
ignored); `Concrete` and `Exact` are rejected by `bail!`. -/
def tryFromWpHeapType : WpHeapType → Except String HeapType
  | .Abstract _ ty =>
      (tryFromWpAbstractHeapType ty).map HeapType.Abstract
  | .Concrete _ => .error "concrete (indexed) heap types are not yet supported"
  | .Exact _ => .error "concrete (indexed) heap types are not yet supported"

/-- `impl TryFrom<wasmparser::RefType> for RefType`. -/
def tryFromWpRefType (ref_type : WpRefType) : Except String RefType :=
  (tryFromWpHeapType ref_type.heap_type).map
    (fun ht => { nullable := ref_type.nullable, heap_type := ht })

/-- `ValType::parse`: numeric and vector types map directly; the four
continuation reference shorthands are rejected; all other reference
types convert through `TryFrom<wasmparser::RefType>`. -/
def valTypeParse (input : WpValType) : Except String ValType :=
  match input with
  | .I32 => .ok .I32
  | .I64 => .ok .I64
  | .F32 => .ok .F32
  | .F64 => .ok .F64
  | .V128 => .ok .V128
  | .Ref ref_type =>
      if ref_type = WpRefType.CONT ∨ ref_type = WpRefType.CONTREF ∨
          ref_type = WpRefType.NULLCONTREF ∨ ref_type = WpRefType.NOCONT then
        .error "The stack switching proposal is not supported"
      else
        (tryFromWpRefType ref_type).map ValType.Ref

/-! ## Spec-modelled module, builder typing, and binary boundary

The module structure, the instruction builder, and the `encode`/`decode`
pair live outside `src/` (only `src/src/ty.rs` and the builder tests are
present); they are modelled here from the spec. -/

/-- Modelled from the spec: the static result reference type the
instruction builder declares for a cast/test/branch-on-cast target
(`ref_test`, `ref_cast`, `br_on_cast` are not under src/). Spec §3
invariant (c): "a non-nullable cast/test result type is exactly the
non-nullable variant of its target heap type, distinct from the nullable
default alias of the same heap type". -/
def castResultRefType (nullable : Bool) (heap : HeapType) : RefType :=
  { nullable := nullable, heap_type := heap }

/-- Modelled from the spec: a binary arithmetic/comparison operator (the
IR operator enum is not under src/; the two variants are exactly the
operators the cited builder tests pass to `binop`, in
`test_slab_allocator_builder`). -/
inductive Binop where
  | I32Add
  | I32LtU
deriving DecidableEq

/-- Modelled from the spec: one structured operation of an instruction
sequence (the IR instruction enum is not under src/). Following the
spec's instruction-sequence model (sections 3 and 4.3), `block`, `loop`
and `ifElse` reference the sequence holding their body by sequence id,
and every branch form — plain `br`, conditional `brIf`, and the
branch-on-cast pair with its five operands (target sequence id, source
nullability and heap type, destination nullability and heap type) —
takes a target sequence id, not a relative depth. The remaining variants
are the operations exercised by the builder tests in
src/crates/tests/tests/gc-builder.rs (i31 constructors/accessors,
cast/test, null and conversion ops, local/global/table accessors,
`i32.const` — whose immediate is the 32-bit pattern, carried as a
`Nat` — and `binop`). -/
inductive Instr where
  | i32Const (value : Nat)
  | localGet (idx : Nat)
  | localSet (idx : Nat)
  | globalGet (idx : Nat)
  | globalSet (idx : Nat)
  | tableGet (idx : Nat)
  | tableSet (idx : Nat)
  | binop (op : Binop)
  | refI31
  | i31GetS
  | i31GetU
  | refTest (nullable : Bool) (heap : HeapType)
  | refCast (nullable : Bool) (heap : HeapType)
  | refNull (ty : RefType)
  | anyConvertExtern
  | externConvertAny
  | drop
  | ret
  | block (seq : Nat)
  | loop (seq : Nat)
  | ifElse (consequent : Nat) (alternative : Nat)
  | br (target : Nat)
  | brIf (target : Nat)
  | brOnCast (target : Nat) (srcNullable : Bool) (srcHeap : HeapType)
      (dstNullable : Bool) (dstHeap : HeapType)
  | brOnCastFail (target : Nat) (srcNullable : Bool) (srcHeap : HeapType)
      (dstNullable : Bool) (dstHeap : HeapType)
deriving DecidableEq

/-- Modelled from the spec: an interned function signature as it appears
in the type section (params and results; ids, names and the internal
function-entry flag are not part of the emitted section). -/
structure FuncType where
  params : List ValType
  results : List ValType
deriving DecidableEq

/-- Modelled from the spec (section 3): one instruction sequence — "an
ordered list of structured operations, identified by a stable id,
carrying a declared static result signature (none, one, or multiple)".
The id is the sequence's position in the owning function's arena. -/
structure InstrSeq where
  results : List ValType
  instrs : List Instr
deriving DecidableEq

/-- Modelled from the spec (sections 3 and 4.3): a function — its
type-section index, its extra locals, and its body as the id-indexed set
of mutually-referencing sequences: `seqs` is the function's sequence
arena (a sequence's id is its index) and `entry` is the id of the
implicit entry sequence the builder allocates. `Block`/`Loop`/`If` and
branch instructions inside the sequences reference other sequences by
these ids; relative nesting depth exists only in the external format and
is computed at encode time from the references. -/
structure Func where
  typeIdx : Nat
  locals : List ValType
  entry : Nat
  seqs : List InstrSeq
deriving DecidableEq

/-- Modelled from the spec: an export table entry mapping a name to a
function id. -/
structure Export where
  name : String
  funcIdx : Nat
deriving DecidableEq

/-- Modelled from the spec (§6, glossary): the decoded/constructed unit,
restricted to the arenas the round-trip claim names — types, functions,
and exports (named `WasmModule` here because Mathlib already has a
`Module`). -/
structure WasmModule where
  types : List FuncType
  funcs : List Func
  exports : List Export
deriving DecidableEq

/-- Modelled from the spec (§4.1): `intern(params, results)` returns the
existing index when a structurally equal type is already in the arena,
else appends a new one. -/
def intern (ts : List FuncType) (t : FuncType) : Nat × List FuncType :=
  match ts.findIdx? (fun t' => decide (t' = t)) with
  | some i => (i, ts)
  | none => (ts.length, ts ++ [t])

/-- Intern a list of decoded types in order, returning the arena and the
remapping of each decoded type's original position to its arena index. -/
def internAll (acc : List FuncType) : List FuncType → List FuncType × List Nat
  | [] => (acc, [])
  | t :: rest =>
      let (i, acc') := intern acc t
      let (fin, is_) := internAll acc' rest
      (fin, i :: is_)

/-! ### Encoding to the byte stream

Modelled from the spec (§6): `encode(Module) -> bytes`. The byte-level
grammar is not given by the spec; the stream is a list of naturals, each
piece emitted length- or opcode-prefixed. -/

/-- Concatenated encoding of a list, prefixed with its length. -/
def encList (enc : α → List Nat) (xs : List α) : List Nat :=
  xs.length :: (xs.map enc).flatten

/-- Encoding of an abstract heap type: its discriminant. -/
def encAbstractHeapType (a : AbstractHeapType) : List Nat :=
  [a.discr]

/-- Encoding of a heap type. -/
def encHeapType : HeapType → List Nat
  | .Abstract a => 0 :: encAbstractHeapType a
  | .Concrete i => [1, i]

/-- Encoding of a reference type. -/
def encRefType (r : RefType) : List Nat :=
  (if r.nullable then 1 else 0) :: encHeapType r.heap_type

/-- Encoding of a value type. -/
def encValType : ValType → List Nat
  | .I32 => [0]
  | .I64 => [1]
  | .F32 => [2]
  | .F64 => [3]
  | .V128 => [4]
  | .Ref r => 5 :: encRefType r

/-- Encoding of a binary operator. -/
def encBinop : Binop → List Nat
  | .I32Add => [0]
  | .I32LtU => [1]

/-- Encoding of one instruction: opcode then immediates. Sequence ids
(of `block`/`loop`/`ifElse` bodies and of branch targets) are emitted
directly. -/
def encInstr : Instr → List Nat
  | .i32Const v => [0, v]
  | .localGet l => [1, l]
  | .refI31 => [2]
  | .i31GetS => [3]
  | .i31GetU => [4]
  | .refTest n h => 5 :: (if n then 1 else 0) :: encHeapType h
  | .refCast n h => 6 :: (if n then 1 else 0) :: encHeapType h
  | .refNull t => 7 :: encRefType t
  | .anyConvertExtern => [8]
  | .externConvertAny => [9]
  | .drop => [10]
  | .ret => [11]
  | .localSet l => [12, l]
  | .globalGet g => [13, g]
  | .globalSet g => [14, g]
  | .tableGet t => [15, t]
  | .tableSet t => [16, t]
  | .binop op => 17 :: encBinop op
  | .block s => [18, s]
  | .loop s => [19, s]
  | .ifElse c a => [20, c, a]
  | .br t => [21, t]
  | .brIf t => [22, t]
  | .brOnCast t sn sh dn dh =>
      (23 :: t :: (if sn then 1 else 0) :: encHeapType sh) ++
        ((if dn then 1 else 0) :: encHeapType dh)
  | .brOnCastFail t sn sh dn dh =>
      (24 :: t :: (if sn then 1 else 0) :: encHeapType sh) ++
        ((if dn then 1 else 0) :: encHeapType dh)

/-- Encoding of one instruction sequence: declared result types, then
the instructions. -/
def encInstrSeq (s : InstrSeq) : List Nat :=
  encList encValType s.results ++ encList encInstr s.instrs

/-- Encoding of a function type: params then results. -/
def encFuncType (t : FuncType) : List Nat :=
  encList encValType t.params ++ encList encValType t.results

/-- Encoding of a function: type index, entry-sequence id, locals, then
the sequence arena in id order. -/
def encFunc (f : Func) : List Nat :=
  f.typeIdx :: f.entry ::
    (encList encValType f.locals ++ encList encInstrSeq f.seqs)

/-- Encoding of an export: name (as character codes) then function id. -/
def encExport (e : Export) : List Nat :=
  encList (fun c : Char => [c.toNat]) e.name.data ++ [e.funcIdx]

/-- Modelled from the spec (§6): `encode(Module) -> bytes` — the type,
function, and export sections in order. -/
def encodeModule (m : WasmModule) : List Nat :=
  encList encFuncType m.types ++ encList encFunc m.funcs ++
    encList encExport m.exports

/-! ### Decoding from the byte stream

Modelled from the spec (§6): `decode(bytes) -> Module`. Each decoder
consumes a prefix of the stream and returns the value with the
remainder, or `none` for malformed input. -/

/-- Decode an abstract heap type (inverse of the discriminant). -/
def decAbstractHeapType : List Nat → Option (AbstractHeapType × List Nat)
  | 0 :: s => some (.Func, s)
  | 1 :: s => some (.Extern, s)
  | 2 :: s => some (.Any, s)
  | 3 :: s => some (.None, s)
  | 4 :: s => some (.NoExtern, s)
  | 5 :: s => some (.NoFunc, s)
  | 6 :: s => some (.Eq, s)
  | 7 :: s => some (.Struct, s)
  | 8 :: s => some (.Array, s)
  | 9 :: s => some (.I31, s)
  | 10 :: s => some (.Exn, s)
  | 11 :: s => some (.NoExn, s)
  | _ => none

/-- Decode a heap type. -/
def decHeapType : List Nat → Option (HeapType × List Nat)
  | 0 :: s => (decAbstractHeapType s).map (fun p => (.Abstract p.1, p.2))
  | 1 :: i :: s => some (.Concrete i, s)
  | _ => none

/-- Decode a reference type. -/
def decRefType : List Nat → Option (RefType × List Nat)
  | 0 :: s =>
      (decHeapType s).map (fun p => ({ nullable := false, heap_type := p.1 }, p.2))
  | 1 :: s =>
      (decHeapType s).map (fun p => ({ nullable := true, heap_type := p.1 }, p.2))
  | _ => none

/-- Decode a value type. -/
def decValType : List Nat → Option (ValType × List Nat)
  | 0 :: s => some (.I32, s)
  | 1 :: s => some (.I64, s)
  | 2 :: s => some (.F32, s)
  | 3 :: s => some (.F64, s)
  | 4 :: s => some (.V128, s)
  | 5 :: s => (decRefType s).map (fun p => (.Ref p.1, p.2))
  | _ => none

/-- Decode one nullability bit. -/
def decBool : List Nat → Option (Bool × List Nat)
  | 0 :: s => some (false, s)
  | 1 :: s => some (true, s)
  | _ => none

/-- Decode a binary operator. -/
def decBinop : List Nat → Option (Binop × List Nat)
  | 0 :: s => some (.I32Add, s)
  | 1 :: s => some (.I32LtU, s)
  | _ => none

/-- Decode the four branch-on-cast operands that follow the target:
source nullability and heap type, destination nullability and heap
type. -/
def decCastOperands (s : List Nat) :
    Option ((Bool × HeapType × Bool × HeapType) × List Nat) :=
  match decBool s with
  | some (sn, s1) =>
      match decHeapType s1 with
      | some (sh, s2) =>
          match decBool s2 with
          | some (dn, s3) =>
              match decHeapType s3 with
              | some (dh, s4) => some ((sn, sh, dn, dh), s4)
              | none => none
          | none => none
      | none => none
  | none => none

/-- Decode one instruction. -/
def decInstr : List Nat → Option (Instr × List Nat)
  | 0 :: v :: s => some (.i32Const v, s)
  | 1 :: l :: s => some (.localGet l, s)
  | 2 :: s => some (.refI31, s)
  | 3 :: s => some (.i31GetS, s)
  | 4 :: s => some (.i31GetU, s)
  | 5 :: s =>
      match decBool s with
      | some (n, s1) => (decHeapType s1).map (fun p => (.refTest n p.1, p.2))
      | none => none
  | 6 :: s =>
      match decBool s with
      | some (n, s1) => (decHeapType s1).map (fun p => (.refCast n p.1, p.2))
      | none => none
  | 7 :: s => (decRefType s).map (fun p => (.refNull p.1, p.2))
  | 8 :: s => some (.anyConvertExtern, s)
  | 9 :: s => some (.externConvertAny, s)
  | 10 :: s => some (.drop, s)
  | 11 :: s => some (.ret, s)
  | 12 :: l :: s => some (.localSet l, s)
  | 13 :: g :: s => some (.globalGet g, s)
  | 14 :: g :: s => some (.globalSet g, s)
  | 15 :: t :: s => some (.tableGet t, s)
  | 16 :: t :: s => some (.tableSet t, s)
  | 17 :: s => (decBinop s).map (fun p => (.binop p.1, p.2))
  | 18 :: q :: s => some (.block q, s)
  | 19 :: q :: s => some (.loop q, s)
  | 20 :: c :: a :: s => some (.ifElse c a, s)
  | 21 :: t :: s => some (.br t, s)
  | 22 :: t :: s => some (.brIf t, s)
  | 23 :: t :: s =>
      (decCastOperands s).map (fun p =>
        (.brOnCast t p.1.1 p.1.2.1 p.1.2.2.1 p.1.2.2.2, p.2))
  | 24 :: t :: s =>
      (decCastOperands s).map (fun p =>
        (.brOnCastFail t p.1.1 p.1.2.1 p.1.2.2.1 p.1.2.2.2, p.2))
  | _ => none

/-- Decode exactly `n` consecutive items. -/
def decodeN (dec : List Nat → Option (α × List Nat)) :
    Nat → List Nat → Option (List α × List Nat)
  | 0, s => some ([], s)
  | n + 1, s =>
      match dec s with
      | some (x, s') =>
          match decodeN dec n s' with
          | some (xs, s'') => some (x :: xs, s'')
          | none => none
      | none => none

/-- Decode a length-prefixed list. -/
def decList (dec : List Nat → Option (α × List Nat)) :
    List Nat → Option (List α × List Nat)
  | [] => none
  | n :: s => decodeN dec n s

/-- Decode one character of an export name. -/
def decChar : List Nat → Option (Char × List Nat)
  | c :: s => some (Char.ofNat c, s)
  | [] => none

/-- Decode a function type. -/
def decFuncType (s : List Nat) : Option (FuncType × List Nat) :=
  match decList decValType s with
  | some (params, s1) =>
      match decList decValType s1 with
      | some (results, s2) => some ({ params := params, results := results }, s2)
      | none => none
  | none => none

/-- Decode one instruction sequence. -/
def decInstrSeq (s : List Nat) : Option (InstrSeq × List Nat) :=
  match decList decValType s with
  | some (results, s1) =>
      match decList decInstr s1 with
      | some (instrs, s2) => some ({ results := results, instrs := instrs }, s2)
      | none => none
  | none => none

/-- Decode a function. -/
def decFunc : List Nat → Option (Func × List Nat)
  | t :: e :: s =>
      match decList decValType s with
      | some (locals, s1) =>
          match decList decInstrSeq s1 with
          | some (seqs, s2) =>
              some ({ typeIdx := t, locals := locals,
                      entry := e, seqs := seqs }, s2)
          | none => none
      | none => none
  | _ => none

/-- Decode an export. -/
def decExport (s : List Nat) : Option (Export × List Nat) :=
  match decList decChar s with
  | some (cs, s1) =>
      match s1 with
      | i :: s2 => some ({ name := String.mk cs, funcIdx := i }, s2)
      | [] => none
  | none => none

/-- Modelled from the spec (§6, §4.1): `decode(bytes) -> Module` — parse
the three sections, intern the decoded types into the type arena, remap
each function's type index through the interner, and require the stream
to be fully consumed. -/
def decodeModule (bytes : List Nat) : Option WasmModule :=
  match decList decFuncType bytes with
  | some (raw, s1) =>
      match decList decFunc s1 with
      | some (fs, s2) =>
          match decList decExport s2 with
          | some (es, s3) =>
              if s3 = [] then
                let (tys, remap) := internAll [] raw
                some { types := tys,
                       funcs := fs.map (fun f =>
                         { f with typeIdx := remap.getD f.typeIdx f.typeIdx }),
                       exports := es }
              else none
          | none => none
      | none => none
  | none => none

/-- Modelled from the spec: modules "produced by the builder or by
decode of valid bytes" — the type arena is interned (no structural
duplicates, spec §3 invariant (a)) and every function's type index is in
range. -/
def wfModule (m : WasmModule) : Prop :=
  m.types.Nodup ∧ ∀ f ∈ m.funcs, f.typeIdx < m.types.length

instance (m : WasmModule) : Decidable (wfModule m) := by
  unfold wfModule; infer_instance

/-- The exact sequence of data fed to the hasher by
`impl Hash for Type`: params, then results, then the function-entry flag
(id and name are not hashed). Rust's slice `Hash` feeds the length then
the elements, matching `encList`. -/
def hashStream (t : Ty) : List Nat :=
  encList encValType t.params ++ encList encValType t.results ++
    [if t.is_for_function_entry then 1 else 0]

/-- Decimal value of a digit list, least significant first (left inverse
of `decDigitsRev`, used to prove injectivity of the decimal rendering). -/
def fromDigitsRev : List Nat → Nat
  | [] => 0
  | d :: ds => d + 10 * fromDigitsRev ds

/-- Code of the first character of a character list (0 when empty);
used to separate the disjoint first characters of the display forms. -/
def charsVal0 (l : List Char) : Nat :=
  (l.head?.map Char.toNat).getD 0

/-- Code of the second character of a character list (0 when absent). -/
def charsVal1 (l : List Char) : Nat :=
  charsVal0 l.tail

/-! ## Helper lemmas -/

theorem Ordering.then_eq (b : Ordering) : Ordering.then .eq b = b := rfl

theorem cmpNat_refl (m : Nat) : cmpNat m m = .eq := by
  simp [cmpNat]

theorem cmpBool_refl (b : Bool) : cmpBool b b = .eq := by
  cases b <;> rfl

theorem cmpAbstractHeapType_refl (a : AbstractHeapType) :
    cmpAbstractHeapType a a = .eq := by
  simp [cmpAbstractHeapType, cmpNat_refl]

theorem cmpHeapType_refl (h : HeapType) : cmpHeapType h h = .eq := by
  cases h <;> simp [cmpHeapType, cmpAbstractHeapType_refl, cmpNat_refl]

theorem cmpRefType_refl (r : RefType) : cmpRefType r r = .eq := by
  simp [cmpRefType, cmpBool_refl, cmpHeapType_refl, Ordering.then_eq]

theorem cmpValType_refl (v : ValType) : cmpValType v v = .eq := by
  cases v <;> simp [cmpValType, cmpRefType_refl]

theorem cmpList_refl (cmp : α → α → Ordering) (h : ∀ a, cmp a a = .eq)
    (l : List α) : cmpList cmp l l = .eq := by
  induction l with
  | nil => rfl
  | cons a as_ ih => simp [cmpList, h, ih, Ordering.then_eq]

theorem decAbstractHeapType_enc (a : AbstractHeapType) (rest : List Nat) :
    decAbstractHeapType (encAbstractHeapType a ++ rest) = some (a, rest) := by
  cases a <;> rfl

theorem decHeapType_enc (h : HeapType) (rest : List Nat) :
    decHeapType (encHeapType h ++ rest) = some (h, rest) := by
  cases h with
  | Abstract a => simp [encHeapType, decHeapType, decAbstractHeapType_enc]
  | Concrete i => rfl

theorem decRefType_enc (r : RefType) (rest : List Nat) :
    decRefType (encRefType r ++ rest) = some (r, rest) := by
  obtain ⟨n, h⟩ := r
  cases n <;> simp [encRefType, decRefType, decHeapType_enc]

theorem decValType_enc (v : ValType) (rest : List Nat) :
    decValType (encValType v ++ rest) = some (v, rest) := by
  cases v with
  | Ref r => simp [encValType, decValType, decRefType_enc]
  | _ => rfl

theorem decBool_enc (b : Bool) (rest : List Nat) :
    decBool ((if b then 1 else 0) :: rest) = some (b, rest) := by
  cases b <;> rfl

theorem decBinop_enc (op : Binop) (rest : List Nat) :
    decBinop (encBinop op ++ rest) = some (op, rest) := by
  cases op <;> rfl

theorem decCastOperands_enc (sn : Bool) (sh : HeapType) (dn : Bool)
    (dh : HeapType) (rest : List Nat) :
    decCastOperands ((if sn then 1 else 0) ::
        (encHeapType sh ++ (if dn then 1 else 0) :: (encHeapType dh ++ rest))) =
      some ((sn, sh, dn, dh), rest) := by
  simp [decCastOperands, decBool_enc, decHeapType_enc]

theorem decInstr_enc (i : Instr) (rest : List Nat) :
    decInstr (encInstr i ++ rest) = some (i, rest) := by
  cases i with
  | refTest n h => simp [encInstr, decInstr, decBool_enc, decHeapType_enc]
  | refCast n h => simp [encInstr, decInstr, decBool_enc, decHeapType_enc]
  | refNull t => simp [encInstr, decInstr, decRefType_enc]
  | binop op => simp [encInstr, decInstr, decBinop_enc]
  | brOnCast t sn sh dn dh =>
      simp [encInstr, decInstr, List.cons_append, List.append_assoc,
        decCastOperands_enc]
  | brOnCastFail t sn sh dn dh =>
      simp [encInstr, decInstr, List.cons_append, List.append_assoc,
        decCastOperands_enc]
  | _ => rfl


theorem decodeN_enc (dec : List Nat → Option (α × List Nat))
    (enc : α → List Nat)
    (hd : ∀ x rest, dec (enc x ++ rest) = some (x, rest)) :
    ∀ (xs : List α) (rest : List Nat),
      decodeN dec xs.length ((xs.map enc).flatten ++ rest) = some (xs, rest) := by
  intro xs
  induction xs with
  | nil => intro rest; rfl
  | cons x xs ih =>
      intro rest
      simp only [List.map_cons, List.flatten_cons, List.length_cons,
        List.append_assoc]
      simp [decodeN, hd, ih]

theorem decList_enc (dec : List Nat → Option (α × List Nat))
    (enc : α → List Nat)
    (hd : ∀ x rest, dec (enc x ++ rest) = some (x, rest))
    (xs : List α) (rest : List Nat) :
    decList dec (encList enc xs ++ rest) = some (xs, rest) := by
  simp [encList, decList, decodeN_enc dec enc hd]

theorem decChar_enc (c : Char) (rest : List Nat) :
    decChar (c.toNat :: rest) = some (c, rest) := by
  simp [decChar, Char.ofNat_toNat]

theorem decFuncType_enc (t : FuncType) (rest : List Nat) :
    decFuncType (encFuncType t ++ rest) = some (t, rest) := by
  simp [encFuncType, decFuncType, List.append_assoc,
    decList_enc decValType encValType decValType_enc]
theorem decInstrSeq_enc (q : InstrSeq) (rest : List Nat) :
    decInstrSeq (encInstrSeq q ++ rest) = some (q, rest) := by
  simp [encInstrSeq, decInstrSeq, List.append_assoc,
    decList_enc decValType encValType decValType_enc,
    decList_enc decInstr encInstr decInstr_enc]


theorem decFunc_enc (f : Func) (rest : List Nat) :
    decFunc (encFunc f ++ rest) = some (f, rest) := by
  simp [encFunc, decFunc, List.append_assoc,
    decList_enc decValType encValType decValType_enc,
    decList_enc decInstrSeq encInstrSeq decInstrSeq_enc]

theorem decExport_enc (e : Export) (rest : List Nat) :
    decExport (encExport e ++ rest) = some (e, rest) := by
  obtain ⟨⟨cs⟩, i⟩ := e
  have henc : ∀ (c : Char) (rest : List Nat),
      decChar (((fun c : Char => [c.toNat]) c) ++ rest) = some (c, rest) := by
    intro c rest
    simpa using decChar_enc c rest
  simp [encExport, decExport, List.append_assoc,
    decList_enc decChar (fun c : Char => [c.toNat]) henc]

theorem intern_not_mem (acc : List FuncType) (t : FuncType) (h : t ∉ acc) :
    intern acc t = (acc.length, acc ++ [t]) := by
  unfold intern
  rw [List.findIdx?_eq_none_iff.mpr]
  intro x hx
  simp only [decide_eq_false_iff_not]
  intro hxt
  exact h (hxt ▸ hx)

theorem internAll_nodup (raw : List FuncType) :
    ∀ acc : List FuncType, (acc ++ raw).Nodup →
      internAll acc raw = (acc ++ raw, List.range' acc.length raw.length) := by
  induction raw with
  | nil => intro acc _; simp [internAll]
  | cons t rest ih =>
      intro acc h
      have ht : t ∉ acc := by
        rcases List.nodup_append.mp h with ⟨-, -, hdisj⟩
        intro hmem
        exact hdisj hmem (by simp)
      have h' : ((acc ++ [t]) ++ rest).Nodup := by
        simpa [List.append_assoc] using h
      simp only [internAll, intern_not_mem acc t ht, ih (acc ++ [t]) h']
      simp [List.range', List.append_assoc]

theorem range'_getD (s n i d : Nat) (h : i < n) :
    (List.range' s n).getD i d = s + i := by
  rw [List.getD_eq_getElem?_getD, List.getElem?_range' _ _ h]
  simp

theorem map_self_of_fix (l : List α) (f : α → α) (h : ∀ x ∈ l, f x = x) :
    l.map f = l := by
  induction l with
  | nil => rfl
  | cons x xs ih =>
      simp only [List.map_cons, h x (by simp)]
      rw [ih (fun y hy => h y (by simp [hy]))]

theorem fromDigitsRev_decFuel :
    ∀ fuel n, n ≤ fuel → fromDigitsRev (decDigitsRevFuel fuel n) = n := by
  intro fuel
  induction fuel with
  | zero =>
      intro n hn
      have : n = 0 := Nat.le_zero.mp hn
      subst this
      rfl
  | succ fuel ih =>
      intro n hn
      by_cases h10 : n < 10
      · simp [decDigitsRevFuel, h10, fromDigitsRev]
      · have hdiv : n / 10 ≤ fuel := by
          have := Nat.div_lt_self (by omega : 0 < n) (by omega : 1 < 10)
          omega
        simp only [decDigitsRevFuel, if_neg h10, fromDigitsRev, ih _ hdiv]
        omega

theorem fromDigitsRev_decDigitsRev (n : Nat) :
    fromDigitsRev (decDigitsRev n) = n :=
  fromDigitsRev_decFuel n n le_rfl

theorem decFuel_lt_ten :
    ∀ fuel n, ∀ d ∈ decDigitsRevFuel fuel n, d < 10 := by
  intro fuel
  induction fuel with
  | zero =>
      intro n d hd
      simp only [decDigitsRevFuel, List.mem_singleton] at hd
      omega
  | succ fuel ih =>
      intro n d hd
      by_cases h10 : n < 10
      · simp only [decDigitsRevFuel, if_pos h10, List.mem_singleton] at hd
        omega
      · simp only [decDigitsRevFuel, if_neg h10, List.mem_cons] at hd
        rcases hd with h | h
        · omega
        · exact ih _ d h

theorem decFuel_ne_nil (fuel n : Nat) : decDigitsRevFuel fuel n ≠ [] := by
  cases fuel with
  | zero => simp [decDigitsRevFuel]
  | succ fuel =>
      by_cases h10 : n < 10 <;> simp [decDigitsRevFuel, h10]

theorem digitChar_toNat : ∀ d, d < 10 → (digitChar d).toNat = 48 + d := by
  decide

theorem map_digitChar_inj :
    ∀ l1 l2 : List Nat, (∀ d ∈ l1, d < 10) → (∀ d ∈ l2, d < 10) →
      l1.map digitChar = l2.map digitChar → l1 = l2 := by
  intro l1
  induction l1 with
  | nil =>
      intro l2 _ _ h
      cases l2 with
      | nil => rfl
      | cons b bs => simp at h
  | cons a as_ ih =>
      intro l2 h1 h2 h
      cases l2 with
      | nil => simp at h
      | cons b bs =>
          simp only [List.map_cons, List.cons.injEq] at h
          have ha : a < 10 := h1 a (by simp)
          have hb : b < 10 := h2 b (by simp)
          have hab : a = b := by
            have := congrArg Char.toNat h.1
            rw [digitChar_toNat a ha, digitChar_toNat b hb] at this
            omega
          rw [hab, ih bs (fun d hd => h1 d (by simp [hd]))
            (fun d hd => h2 d (by simp [hd])) h.2]

theorem natDecimal_inj (m n : Nat) (h : natDecimal m = natDecimal n) : m = n := by
  unfold natDecimal at h
  have hdata := congrArg String.data h
  simp only at hdata
  have hrev := map_digitChar_inj _ _
    (fun d hd => decFuel_lt_ten m m d (List.mem_reverse.mp hd))
    (fun d hd => decFuel_lt_ten n n d (List.mem_reverse.mp hd)) hdata
  have := List.reverse_inj.mp hrev
  rw [← fromDigitsRev_decDigitsRev m, ← fromDigitsRev_decDigitsRev n]
  unfold decDigitsRev
  rw [this]

theorem natDecimal_head (n : Nat) :
    ∃ c rest, (natDecimal n).data = c :: rest ∧ 47 < c.toNat ∧ c.toNat < 58 := by
  cases hrev : (decDigitsRev n).reverse with
  | nil =>
      exact absurd hrev (by simp [decDigitsRev, decFuel_ne_nil])
  | cons d l =>
      have hd10 : d < 10 := by
        apply decFuel_lt_ten n n
        have : d ∈ (decDigitsRev n).reverse := by rw [hrev]; simp
        exact List.mem_reverse.mp this
      refine ⟨digitChar d, l.map digitChar, ?_, ?_, ?_⟩
      · show (String.mk (((decDigitsRev n).reverse).map digitChar)).data = _
        rw [hrev]
        rfl
      · rw [digitChar_toNat d hd10]; omega
      · rw [digitChar_toNat d hd10]; omega

theorem String.eq_of_data_eq (s t : String) (h : s.data = t.data) : s = t := by
  cases s; cases t; exact congrArg String.mk h

theorem abstractHeapTypeName_inj :
    ∀ a b : AbstractHeapType, abstractHeapTypeName a = abstractHeapTypeName b → a = b := by
  intro a b
  cases a <;> cases b <;> first
    | (intro _; rfl)
    | (intro h; exact absurd h (by decide))

theorem abstractHeapTypeName_headVal (a : AbstractHeapType) :
    96 < charsVal0 (abstractHeapTypeName a).data := by
  cases a <;> decide

theorem headVal_natDecimal (n : Nat) : charsVal0 (natDecimal n).data < 58 := by
  obtain ⟨c, rest, hd, hlo, hhi⟩ := natDecimal_head n
  rw [charsVal0, hd]
  simpa using hhi

theorem abstractHeapTypeName_ne_natDecimal (a : AbstractHeapType) (n : Nat) :
    abstractHeapTypeName a ≠ natDecimal n := by
  intro h
  have h1 := abstractHeapTypeName_headVal a
  have h2 := headVal_natDecimal n
  rw [h] at h1
  omega

theorem displayHeapType_inj (h1 h2 : HeapType)
    (h : displayHeapType h1 = displayHeapType h2) : h1 = h2 := by
  cases h1 with
  | Abstract a =>
      cases h2 with
      | Abstract b => rw [abstractHeapTypeName_inj a b h]
      | Concrete j => exact absurd h (abstractHeapTypeName_ne_natDecimal a j)
  | Concrete i =>
      cases h2 with
      | Abstract b => exact absurd h.symm (abstractHeapTypeName_ne_natDecimal b i)
      | Concrete j => rw [natDecimal_inj i j h]

theorem displayRefType_shorthand (a : AbstractHeapType) :
    displayRefType { nullable := true, heap_type := .Abstract a } =
      shorthandName a := by
  cases a <;> rfl

theorem displayRefType_concreteNull (i : Nat) :
    displayRefType { nullable := true, heap_type := .Concrete i } =
      "(ref null " ++ natDecimal i ++ ")" := rfl

theorem displayRefType_nonNullable (h : HeapType) :
    displayRefType { nullable := false, heap_type := h } =
      "(ref " ++ displayHeapType h ++ ")" := rfl

theorem shorthandName_inj :
    ∀ a b : AbstractHeapType, shorthandName a = shorthandName b → a = b := by
  intro a b
  cases a <;> cases b <;> first
    | (intro _; rfl)
    | (intro h; exact absurd h (by decide))

theorem shorthandName_headVal (a : AbstractHeapType) :
    96 < charsVal0 (shorthandName a).data := by
  cases a <;> decide

theorem charsVal0_paren (s t : String) :
    charsVal0 (("(ref " ++ s ++ t).data) = 40 := by
  rw [String.data_append, String.data_append]
  rfl

theorem charsVal0_parenNull (s t : String) :
    charsVal0 (("(ref null " ++ s ++ t).data) = 40 := by
  rw [String.data_append, String.data_append]
  rfl

theorem charsVal0_natDecimal_append (j : Nat) (l : List Char) :
    charsVal0 ((natDecimal j).data ++ l) < 58 := by
  obtain ⟨c, rest, hd, _, hhi⟩ := natDecimal_head j
  rw [hd]
  simpa [charsVal0] using hhi

theorem heapDisplay_not_null_prefix (b : AbstractHeapType) :
    charsVal0 ((displayHeapType (.Abstract b)).data ++ [')']) ≠ 110 ∨
      charsVal1 ((displayHeapType (.Abstract b)).data ++ [')']) ≠ 117 := by
  cases b <;> decide

theorem nullForm_ne_refForm (i : Nat) (h2 : HeapType) :
    ("(ref null " ++ natDecimal i ++ ")") ≠ ("(ref " ++ displayHeapType h2 ++ ")") := by
  intro heq
  have hdata := congrArg String.data heq
  simp only [String.data_append, List.append_assoc, List.cons_append,
    List.nil_append, List.cons.injEq, true_and] at hdata
  have hv0 : charsVal0 ((displayHeapType h2).data ++ [')']) = 110 := by
    rw [← hdata]; rfl
  have hv1 : charsVal1 ((displayHeapType h2).data ++ [')']) = 117 := by
    rw [← hdata]; rfl
  cases h2 with
  | Abstract b =>
      rcases heapDisplay_not_null_prefix b with hne | hne
      · exact hne hv0
      · exact hne hv1
  | Concrete j =>
      have := charsVal0_natDecimal_append j [')']
      rw [show displayHeapType (HeapType.Concrete j) = natDecimal j from rfl] at hv0
      omega

theorem displayRefType_inj (r1 r2 : RefType)
    (h : displayRefType r1 = displayRefType r2) : r1 = r2 := by
  obtain ⟨n1, h1⟩ := r1
  obtain ⟨n2, h2⟩ := r2
  cases n1 with
  | true =>
      cases n2 with
      | true =>
          cases h1 with
          | Abstract a =>
              cases h2 with
              | Abstract b =>
                  rw [displayRefType_shorthand, displayRefType_shorthand] at h
                  rw [shorthandName_inj a b h]
              | Concrete j =>
                  rw [displayRefType_shorthand, displayRefType_concreteNull] at h
                  have hv := congrArg (fun s => charsVal0 s.data) h
                  simp only [charsVal0_parenNull] at hv
                  have := shorthandName_headVal a
                  omega
          | Concrete i =>
              cases h2 with
              | Abstract b =>
                  rw [displayRefType_shorthand, displayRefType_concreteNull] at h
                  have hv := congrArg (fun s => charsVal0 s.data) h.symm
                  simp only [charsVal0_parenNull] at hv
                  have := shorthandName_headVal b
                  omega
              | Concrete j =>
                  rw [displayRefType_concreteNull, displayRefType_concreteNull] at h
                  have hdata := congrArg String.data h
                  simp only [String.data_append, List.append_assoc] at hdata
                  have hcancel := List.append_cancel_left hdata
                  have hdigits := List.append_cancel_right hcancel
                  rw [natDecimal_inj i j
                    (String.eq_of_data_eq _ _ hdigits)]
      | false =>
          cases h1 with
          | Abstract a =>
              rw [displayRefType_shorthand, displayRefType_nonNullable] at h
              have hv := congrArg (fun s => charsVal0 s.data) h
              simp only [charsVal0_paren] at hv
              have := shorthandName_headVal a
              omega
          | Concrete i =>
              rw [displayRefType_concreteNull, displayRefType_nonNullable] at h
              exact absurd h (nullForm_ne_refForm i h2)
  | false =>
      cases n2 with
      | true =>
          cases h2 with
          | Abstract b =>
              rw [displayRefType_shorthand, displayRefType_nonNullable] at h
              have hv := congrArg (fun s => charsVal0 s.data) h.symm
              simp only [charsVal0_paren] at hv
              have := shorthandName_headVal b
              omega
          | Concrete j =>
              rw [displayRefType_concreteNull, displayRefType_nonNullable] at h
              exact absurd h.symm (nullForm_ne_refForm j h1)
      | false =>
          rw [displayRefType_nonNullable, displayRefType_nonNullable] at h
          have hdata := congrArg String.data h
          simp only [String.data_append, List.append_assoc] at hdata
          have hcancel := List.append_cancel_left hdata
          have hdisp := List.append_cancel_right hcancel
          rw [displayHeapType_inj h1 h2 (String.eq_of_data_eq _ _ hdisp)]

/-! ## The claims -/

/-- C1: for every module produced by the builder or by decoding valid
bytes (modelled by `wfModule`: interned, in-range type indices),
`decode(encode(m))` recovers `m` itself — the same types up to interning,
the same functions, and the same exports. -/
theorem decode_encode_roundtrip (m : WasmModule) (h : wfModule m) :
    decodeModule (encodeModule m) = some m := by
  obtain ⟨hnodup, hidx⟩ := h
  have h1 := decList_enc decFuncType encFuncType decFuncType_enc m.types
    (encList encFunc m.funcs ++ encList encExport m.exports)
  have h2 := decList_enc decFunc encFunc decFunc_enc m.funcs
    (encList encExport m.exports)
  have h3 := decList_enc decExport encExport decExport_enc m.exports []
  rw [List.append_nil] at h3
  have hintern := internAll_nodup m.types [] (by simpa using hnodup)
  simp only [List.nil_append, List.length_nil] at hintern
  have hmap : m.funcs.map (fun f =>
      { typeIdx := ((List.range' 0 m.types.length)[f.typeIdx]?).getD f.typeIdx,
        locals := f.locals, entry := f.entry, seqs := f.seqs }) = m.funcs := by
    apply map_self_of_fix
    intro f hf
    rw [List.getElem?_range' _ _ (hidx f hf)]
    simp
  unfold encodeModule decodeModule
  rw [List.append_assoc]
  simp only [h1, h2, h3, hintern]
  simp [hmap]

/-- Witness for C1: the round trip evaluated on a module combining the
shapes of `test_br_on_cast_builder` and the slab allocator's `init` —
a `br_on_cast` function whose entry sequence wraps a dangling block
sequence, and a loop function using `br_if`, `binop`, `local.set` and
`table.set` — plus the `test_i31_roundtrip_builder` body and exports. -/
theorem decode_encode_roundtrip_witness :
    wfModule
      { types := [{ params := [.Ref RefType.ANYREF], results := [.I32] },
                  { params := [], results := [] }],
        funcs := [
          { typeIdx := 0, locals := [.Ref RefType.ANYREF], entry := 0,
            seqs := [
              { results := [.I32],
                instrs := [.block 1, .i31GetU] },
              { results := [.Ref RefType.I31REF],
                instrs := [.localGet 0,
                  .brOnCast 1 true (.Abstract .Any) true (.Abstract .I31),
                  .drop, .i32Const 4294967295, .ret] }] },
          { typeIdx := 1, locals := [.I32], entry := 0,
            seqs := [
              { results := [],
                instrs := [.i32Const 0, .localSet 0, .loop 1, .i32Const 127,
                  .i32Const 128, .refI31, .tableSet 0] },
              { results := [],
                instrs := [.localGet 0, .localGet 0, .i32Const 1,
                  .binop .I32Add, .refI31, .tableSet 0, .localGet 0,
                  .i32Const 1, .binop .I32Add, .localSet 0, .localGet 0,
                  .i32Const 127, .binop .I32LtU, .brIf 1] }] }],
        exports := [{ name := "br_on_cast_i31", funcIdx := 0 },
                    { name := "init", funcIdx := 1 }] } ∧
    decodeModule (encodeModule
      { types := [{ params := [.Ref RefType.ANYREF], results := [.I32] },
                  { params := [], results := [] }],
        funcs := [
          { typeIdx := 0, locals := [.Ref RefType.ANYREF], entry := 0,
            seqs := [
              { results := [.I32],
                instrs := [.block 1, .i31GetU] },
              { results := [.Ref RefType.I31REF],
                instrs := [.localGet 0,
                  .brOnCast 1 true (.Abstract .Any) true (.Abstract .I31),
                  .drop, .i32Const 4294967295, .ret] }] },
          { typeIdx := 1, locals := [.I32], entry := 0,
            seqs := [
              { results := [],
                instrs := [.i32Const 0, .localSet 0, .loop 1, .i32Const 127,
                  .i32Const 128, .refI31, .tableSet 0] },
              { results := [],
                instrs := [.localGet 0, .localGet 0, .i32Const 1,
                  .binop .I32Add, .refI31, .tableSet 0, .localGet 0,
                  .i32Const 1, .binop .I32Add, .localSet 0, .localGet 0,
                  .i32Const 127, .binop .I32LtU, .brIf 1] }] }],
        exports := [{ name := "br_on_cast_i31", funcIdx := 0 },
                    { name := "init", funcIdx := 1 }] }) = some
      { types := [{ params := [.Ref RefType.ANYREF], results := [.I32] },
                  { params := [], results := [] }],
        funcs := [
          { typeIdx := 0, locals := [.Ref RefType.ANYREF], entry := 0,
            seqs := [
              { results := [.I32],
                instrs := [.block 1, .i31GetU] },
              { results := [.Ref RefType.I31REF],
                instrs := [.localGet 0,
                  .brOnCast 1 true (.Abstract .Any) true (.Abstract .I31),
                  .drop, .i32Const 4294967295, .ret] }] },
          { typeIdx := 1, locals := [.I32], entry := 0,
            seqs := [
              { results := [],
                instrs := [.i32Const 0, .localSet 0, .loop 1, .i32Const 127,
                  .i32Const 128, .refI31, .tableSet 0] },
              { results := [],
                instrs := [.localGet 0, .localGet 0, .i32Const 1,
                  .binop .I32Add, .refI31, .tableSet 0, .localGet 0,
                  .i32Const 1, .binop .I32Add, .localSet 0, .localGet 0,
                  .i32Const 127, .binop .I32LtU, .brIf 1] }] }],
        exports := [{ name := "br_on_cast_i31", funcIdx := 0 },
                    { name := "init", funcIdx := 1 }] } :=
  ⟨by decide, decode_encode_roundtrip _ (by decide)⟩

/-- C2 counterexample: two `Type`s with identical params and results but
different `is_for_function_entry` flags are unequal under `PartialEq`,
yet `Ord::cmp` — which compares only params and results — returns
`Ordering::Equal`; so ordering is not structural over the full triple
and is not "params, then results, then the flag". -/
theorem ty_ord_ignores_flag_counterexample :
    tyEq { id := 0, params := [], results := [ValType.I32],
           is_for_function_entry := false, name := none }
         { id := 1, params := [], results := [ValType.I32],
           is_for_function_entry := true, name := some "entry" } = false ∧
    tyCmp { id := 0, params := [], results := [ValType.I32],
            is_for_function_entry := false, name := none }
          { id := 1, params := [], results := [ValType.I32],
            is_for_function_entry := true, name := some "entry" } = .eq := by
  constructor
  · decide
  · rfl

/-- C2 (amended): equality and hashing are structural over exactly
`(params, results, is_for_function_entry)` — id and name excluded — and
ordering is lexicographic over params then results ONLY (the flag does
not participate in `Ord`); `Eq`-equal types compare `Ordering::Equal`
and feed identical data to the hasher. -/
theorem ty_structural_eq_hash_ord :
    (∀ t1 t2 : Ty, tyEq t1 t2 = true ↔
       (t1.params = t2.params ∧ t1.results = t2.results ∧
        t1.is_for_function_entry = t2.is_for_function_entry)) ∧
    (∀ t1 t2 : Ty, tyCmp t1 t2 =
       (cmpList cmpValType t1.params t2.params).then
         (cmpList cmpValType t1.results t2.results)) ∧
    (∀ t1 t2 : Ty, tyEq t1 t2 = true →
       tyCmp t1 t2 = .eq ∧ hashStream t1 = hashStream t2) := by
  refine ⟨?_, ?_, ?_⟩
  · intro t1 t2
    simp [tyEq, Bool.and_eq_true, decide_eq_true_eq, and_assoc]
  · intro t1 t2
    rfl
  · intro t1 t2 h
    simp only [tyEq, Bool.and_eq_true, decide_eq_true_eq] at h
    obtain ⟨⟨hp, hr⟩, hf⟩ := h
    constructor
    · rw [tyCmp, hp, hr, cmpList_refl cmpValType cmpValType_refl,
        cmpList_refl cmpValType cmpValType_refl]
      rfl
    · rw [hashStream, hashStream, hp, hr, hf]

/-- Witness for C2: two types that share the structural triple but have
different ids and names compare `Ordering::Equal` and hash identically. -/
theorem ty_structural_eq_hash_ord_witness :
    tyCmp { id := 0, params := [ValType.I32], results := [],
            is_for_function_entry := false, name := none }
          { id := 7, params := [ValType.I32], results := [],
            is_for_function_entry := false, name := some "other" } = .eq ∧
    hashStream { id := 0, params := [ValType.I32], results := [],
                 is_for_function_entry := false, name := none } =
      hashStream { id := 7, params := [ValType.I32], results := [],
                   is_for_function_entry := false, name := some "other" } :=
  ty_structural_eq_hash_ord.2.2 _ _ (by decide)

/-- C3: decoding a concrete/indexed or exact external heap type returns
an error (never a crash, never a substitution), and every abstract
non-continuation heap type decodes successfully. -/
theorem heap_decode_rejects_concrete :
    (∀ i : Nat, (tryFromWpHeapType (.Concrete i)).isOk = false) ∧
    (∀ i : Nat, (tryFromWpHeapType (.Exact i)).isOk = false) ∧
    (∀ (sh : Bool) (ty : WpAbstractHeapType),
      ty ≠ .Cont → ty ≠ .NoCont →
      (tryFromWpHeapType (.Abstract sh ty)).isOk = true) := by
  refine ⟨fun i => rfl, fun i => rfl, ?_⟩
  intro sh ty h1 h2
  cases ty <;> first
    | rfl
    | exact absurd rfl h1
    | exact absurd rfl h2

/-- Witness for C3: the concrete index 0 and the exact index 0 are
rejected, and the abstract `i31` heap type decodes. -/
theorem heap_decode_rejects_concrete_witness :
    (tryFromWpHeapType (.Abstract false .I31)).isOk = true :=
  heap_decode_rejects_concrete.2.2 false .I31 (by decide) (by decide)

/-- C4: the Display rendering of `RefType` is canonical: nullable
abstract types render as their shorthand name, nullable concrete and all
non-nullable types render in the explicit parenthesized form; in
particular nullable `i31` renders `"i31ref"` and non-nullable `i31`
renders `"(ref i31)"`. -/
theorem ref_type_display_canonical :
    (∀ a : AbstractHeapType,
      displayRefType { nullable := true, heap_type := .Abstract a } =
        shorthandName a) ∧
    (∀ i : Nat,
      displayRefType { nullable := true, heap_type := .Concrete i } =
        "(ref null " ++ natDecimal i ++ ")") ∧
    (∀ h : HeapType,
      displayRefType { nullable := false, heap_type := h } =
        "(ref " ++ displayHeapType h ++ ")") ∧
    displayRefType RefType.I31REF = "i31ref" ∧
    displayRefType { nullable := false, heap_type := .Abstract .I31 } =
      "(ref i31)" := by
  refine ⟨displayRefType_shorthand, fun i => rfl, fun h => rfl, ?_, ?_⟩
  · decide
  · decide

/-- C5 counterexample: no `RefType` associated constant has heap type
`NoExn` — the claim that every variant of the twelve-element abstract
set has a canonical constant fails at `NoExn` (there is no
`NULLEXNREF`). -/
theorem no_constant_for_noexn :
    (refTypeConstants.any (fun c =>
      decide (c.heap_type = HeapType.Abstract AbstractHeapType.NoExn))) = false := by
  decide

/-- C5 (amended): for every abstract heap type except `NoExn` there is a
canonical constant that is exactly its nullable shorthand form, and
every constant is nullable (none exists with `nullable = false`). -/
theorem ref_type_constants_nullable :
    (∀ a : AbstractHeapType, a ≠ .NoExn →
      (refTypeConstants.any (fun c =>
        decide (c = { nullable := true, heap_type := .Abstract a }))) = true) ∧
    (refTypeConstants.all (fun c => c.nullable)) = true := by
  constructor
  · intro a ha
    cases a <;> first
      | decide
      | exact absurd rfl ha
  · decide

/-- Witness for C5: the `i31` abstract heap type has its nullable
constant (`I31REF`). -/
theorem ref_type_constants_nullable_witness :
    (refTypeConstants.any (fun c =>
      decide (c = { nullable := true,
                    heap_type := .Abstract AbstractHeapType.I31 }))) = true :=
  ref_type_constants_nullable.1 .I31 (by decide)

/-- C6: converting a heap type to the encoder representation aborts
(`todo!`, modelled as `none`) exactly on `Concrete`, and on every
`Abstract` heap type it totally succeeds with the same-named encoder
variant and `shared: false`. -/
theorem to_wasmencoder_heap_type_aborts_iff_concrete :
    (∀ h : HeapType, toWasmencoderHeapType h = none ↔
      ∃ i, h = .Concrete i) ∧
    (∀ a : AbstractHeapType, toWasmencoderHeapType (.Abstract a) =
      some { shared := false, ty := abstractHeapTypeIntoEnc a }) := by
  constructor
  · intro h
    cases h with
    | Abstract a =>
        simp [toWasmencoderHeapType]
    | Concrete i =>
        simp [toWasmencoderHeapType]
  · intro a
    rfl

/-- C7: every continuation-related construct is rejected at decode with
an explicit error — the abstract conversion fails on `Cont` and
`NoCont`, value-type parsing fails on the `CONT`, `CONTREF`,
`NULLCONTREF` and `NOCONT` shorthands — while each of the twelve other
abstract heap types converts to the same-named internal variant. -/
theorem continuation_constructs_rejected :
    (tryFromWpAbstractHeapType .Cont).isOk = false ∧
    (tryFromWpAbstractHeapType .NoCont).isOk = false ∧
    tryFromWpAbstractHeapType .Func = .ok .Func ∧
    tryFromWpAbstractHeapType .Extern = .ok .Extern ∧
    tryFromWpAbstractHeapType .Any = .ok .Any ∧
    tryFromWpAbstractHeapType .None = .ok .None ∧
    tryFromWpAbstractHeapType .NoExtern = .ok .NoExtern ∧
    tryFromWpAbstractHeapType .NoFunc = .ok .NoFunc ∧
    tryFromWpAbstractHeapType .Eq = .ok .Eq ∧
    tryFromWpAbstractHeapType .Struct = .ok .Struct ∧
    tryFromWpAbstractHeapType .Array = .ok .Array ∧
    tryFromWpAbstractHeapType .I31 = .ok .I31 ∧
    tryFromWpAbstractHeapType .Exn = .ok .Exn ∧
    tryFromWpAbstractHeapType .NoExn = .ok .NoExn ∧
    (valTypeParse (.Ref WpRefType.CONT)).isOk = false ∧
    (valTypeParse (.Ref WpRefType.CONTREF)).isOk = false ∧
    (valTypeParse (.Ref WpRefType.NULLCONTREF)).isOk = false ∧
    (valTypeParse (.Ref WpRefType.NOCONT)).isOk = false := by
  refine ⟨rfl, rfl, rfl, rfl, rfl, rfl, rfl, rfl, rfl, rfl, rfl, rfl, rfl,
    rfl, ?_, ?_, ?_, ?_⟩ <;> decide

/-- C8 (spec-modelled: the builder's cast/test instruction constructors
are not under src/): a cast or test built with a non-nullable target
declares exactly the non-nullable variant of the target heap type, which
is never the nullable default constant of that heap type; in particular
a non-nullable `i31` cast result is `Ref{nullable:false, heap:I31}`, not
`I31REF`. -/
theorem cast_result_type_non_nullable :
    (∀ h : HeapType, castResultRefType false h =
      { nullable := false, heap_type := h }) ∧
    (∀ h : HeapType,
      decide (castResultRefType false h =
        { nullable := true, heap_type := h }) = false) ∧
    castResultRefType false (.Abstract .I31) =
      { nullable := false, heap_type := .Abstract .I31 } ∧
    decide (castResultRefType false (.Abstract .I31) = RefType.I31REF) = false := by
  refine ⟨fun h => rfl, ?_, rfl, by decide⟩
  intro h
  rw [decide_eq_false_iff_not]
  intro hcontra
  exact Bool.false_ne_true (congrArg RefType.nullable hcontra)

/-- C9: the tombstone delete hook empties params and results and changes
nothing else — id, name, and the function-entry flag survive, so the
slot stays dereferenceable as a tombstoned entry. -/
theorem on_delete_clears_params_results (t : Ty) :
    (tyOnDelete t).params = [] ∧ (tyOnDelete t).results = [] ∧
    (tyOnDelete t).id = t.id ∧
    (tyOnDelete t).is_for_function_entry = t.is_for_function_entry ∧
    (tyOnDelete t).name = t.name :=
  ⟨rfl, rfl, rfl, rfl, rfl⟩

/-- C10: the Display rendering of `RefType` is injective — two reference
types with the same rendered string are equal. -/
theorem display_ref_type_injective (r1 r2 : RefType)
    (h : displayRefType r1 = displayRefType r2) : r1 = r2 :=
  displayRefType_inj r1 r2 h

/-- Witness for C10: applied at the nullable `i31` reference type
written two different ways. -/
theorem display_ref_type_injective_witness :
    ({ nullable := true, heap_type := .Abstract .I31 } : RefType) =
      RefType.I31REF :=
  display_ref_type_injective
    { nullable := true, heap_type := .Abstract .I31 } RefType.I31REF (by decide)
